import Mathlib

/-!
Shallow embedding of the neo-bank Anchor program (programs/bank/src) and
verification of its specification claims.

Modelling conventions:
* `u64`/`u32`/`u16`/`u8` values are `Nat` with explicit `% 2 ^ w` (or an
  explicit bound check) exactly where the Rust code truncates (`as u64`)
  or saturates (`saturating_add`); `checked_*(..).unwrap()` calls are
  modelled by an explicit overflow test that aborts the call with the
  distinguished error `BankError.Panic`.
* `i64` timestamps are `Int`; plain `+`/`-` on timestamps is mathematical
  integer arithmetic (the program never exercises the `i64` boundary).
* A `Pubkey` is its list of raw bytes (`to_bytes` in the source); the
  risk screener inspects those bytes, every other use only compares keys.
* Each instruction handler is a pure function from its account state and
  instruction arguments to a result record carrying the outcome and the
  state of every account after the call, in the handler's own sequential
  semantics: writes performed before an early `return err!(..)` are kept
  in the returned state (the spec describes exactly this persistence for
  the security counter and the circuit breaker).
* Lamport transfers are modelled by balance arithmetic on the `vault`,
  `treasury` and `destination` balances that the handler touches.
-/

namespace NeoBank

/-- Raw bytes of a Solana address (`Pubkey::to_bytes`). -/
abbrev Pubkey := List Nat

/-- The modulus `2 ^ 64` of Rust `u64` arithmetic. -/
def U64 : Nat := 2 ^ 64

/-- The saturation point `u32::MAX` of `saturating_add` on the
suspicious-activity counter. -/
def U32MAX : Nat := 2 ^ 32 - 1

/-- Error codes of the program (error.rs), plus `UnauthorizedDelegate`
and `DelegateExpired` (raised by withdraw.rs though not listed in
error.rs), plus `Panic` for an aborted `checked_*(..).unwrap()` (an
arithmetic-overflow abort, which is not a declared error variant). -/
inductive BankError where
  | SpendingLimitExceeded
  | InvalidAuthority
  | InsufficientFunds
  | IntentWouldExceedLimit
  | IntentInsufficientFunds
  | HookDisabled
  | HookConditionNotMet
  | InvalidPercentage
  | TooManyAdmins
  | InvalidThreshold
  | NotAdmin
  | InsufficientTreasuryFunds
  | ProposalNotPending
  | ProposalExpired
  | ProposalNotApproved
  | InvalidDestination
  | InvalidProtocol
  | Unauthorized
  | BankPaused
  | SuspiciousDestination
  | NeoShieldCheckFailed
  | LowReputationScore
  | UnauthorizedDelegate
  | DelegateExpired
  | Panic
deriving DecidableEq, Repr

instance {ε α : Type} [DecidableEq ε] [DecidableEq α] :
    DecidableEq (Except ε α) := fun a b =>
  match a, b with
  | .ok x, .ok y =>
    match decEq x y with
    | isTrue h => isTrue (h ▸ rfl)
    | isFalse h => isFalse (fun hh => h (Except.ok.inj hh))
  | .error x, .error y =>
    match decEq x y with
    | isTrue h => isTrue (h ▸ rfl)
    | isFalse h => isFalse (fun hh => h (Except.error.inj hh))
  | .ok _, .error _ => isFalse (fun hh => Except.noConfusion hh)
  | .error _, .ok _ => isFalse (fun hh => Except.noConfusion hh)

/-- state.rs `BankConfig`, with the pause / circuit-breaker fields that
initialize_bank.rs, emergency_pause.rs, circuit_breaker.rs and
withdraw.rs read and write on the config account
(`paused`, `pause_reason`, `suspicious_activity_count` (u32),
`auto_pause_threshold` (u32), `last_security_check`). -/
structure BankConfig where
  admin : Pubkey
  protocol_fee_bps : Nat
  total_fees_collected : Nat
  paused : Bool
  pause_reason : Nat
  suspicious_activity_count : Nat
  auto_pause_threshold : Nat
  last_security_check : Int
deriving DecidableEq, Repr

/-- state.rs `Agent` (the fields the verified handlers use). -/
structure Agent where
  owner : Pubkey
  spending_limit : Nat
  period_duration : Int
  current_period_start : Int
  current_period_spend : Nat
  total_deposited : Nat
  staked_amount : Nat
  last_yield_timestamp : Int
deriving DecidableEq, Repr

/-- The `Delegate` record as read by withdraw.rs and written by
delegate.rs (`can_spend`, `can_manage_yield`, `valid_until`); the
`agent`/`delegate_key` fields are enforced by the account constraints
before the handler runs and are left out of the payload. -/
structure Delegate where
  can_spend : Bool
  can_manage_yield : Bool
  valid_until : Int
deriving DecidableEq, Repr

/-! ## security_cpi.rs : the NeoShield destination risk screener -/

/-- security_cpi.rs `ValidationResult`. -/
structure ValidationResult where
  is_safe : Bool
  risk_score : Nat
  reason_code : Nat
deriving DecidableEq, Repr

/-- security_cpi.rs `validate_destination`: all-zero bytes are
blacklisted (risk 100), all-identical bytes are a suspicious pattern
(risk 95), anything else passes with risk 0.  The `[]` match arm is
unreachable (an empty byte list is caught by the all-zero branch, and
real keys have 32 bytes); it is present only for totality. -/
def validate_destination (dest_bytes : List Nat) : ValidationResult :=
  if dest_bytes.all (fun b => b == 0) then
    ⟨false, 100, 3⟩
  else
    match dest_bytes with
    | [] => ⟨true, 0, 0⟩
    | first_byte :: _ =>
      if dest_bytes.all (fun b => b == first_byte) then
        ⟨false, 95, 2⟩
      else
        ⟨true, 0, 0⟩

/-- security_cpi.rs `should_block_transaction`. -/
def should_block_transaction (result : ValidationResult) : Bool :=
  !result.is_safe || decide (result.risk_score > 80)

/-! ## withdraw.rs : the authorization and spending-limit engine -/

/-- Outcome of one `withdraw` call: the handler result together with the
post-call state of every account it touches and the fee / net split it
computed (`fee`, `net`, `destPaid` are 0 on failure). -/
structure WithdrawResult where
  res : Except BankError Unit
  agent : Agent
  config : BankConfig
  vault : Nat
  treasury : Nat
  destPaid : Nat
  fee : Nat
  net : Nat
deriving DecidableEq, Repr

/-- Failure outcome: no funds move, the (possibly mutated) accounts are
returned as the handler left them. -/
def withdrawFail (e : BankError) (cfg : BankConfig) (ag : Agent)
    (vault treasury : Nat) : WithdrawResult :=
  ⟨.error e, ag, cfg, vault, treasury, 0, 0, 0⟩

/-- The owner-or-delegate authority block of withdraw.rs (lines 74-93):
the owner always passes; a delegate must exist, have `can_spend` and be
unexpired (`valid_until == 0` means no expiry). -/
def authority_check (agent : Agent) (authority : Pubkey)
    (delegate_record : Option Delegate) (current_time : Int) :
    Except BankError Unit :=
  if authority = agent.owner then .ok ()
  else
    match delegate_record with
    | none => .error .InvalidAuthority
    | some d =>
      if !d.can_spend then .error .UnauthorizedDelegate
      else if d.valid_until > 0 ∧ ¬current_time < d.valid_until then
        .error .DelegateExpired
      else .ok ()

/-- The lazy period reset of withdraw.rs (lines 141-145): reset exactly
when `now > current_period_start + period_duration`. -/
def reset_period (agent : Agent) (current_time : Int) : Agent :=
  if current_time > agent.current_period_start + agent.period_duration
  then { agent with
           current_period_start := current_time,
           current_period_spend := 0 }
  else agent

/-- Steps 6-8 of withdraw.rs (lines 147-208) on the already-reset agent:
spending-limit check (`checked_add` abort on u64 overflow), balance
check, spend update, fee split (`u128` multiply, divide by 10000,
`as u64` truncation), `checked_sub` for the net amount, fee transfer
with `total_fees_collected` accumulation, and the net transfer. -/
def withdrawCommit (cfg : BankConfig) (agent1 : Agent)
    (amount vault treasury : Nat) : WithdrawResult :=
  -- checked_add(amount).unwrap()
  if agent1.current_period_spend + amount ≥ U64 then
    withdrawFail .Panic cfg agent1 vault treasury
  else
    let new_spend := agent1.current_period_spend + amount
    if new_spend > agent1.spending_limit then
      withdrawFail .SpendingLimitExceeded cfg agent1 vault treasury
    else if vault < amount then
      withdrawFail .InsufficientFunds cfg agent1 vault treasury
    else
      let agent2 := { agent1 with current_period_spend := new_spend }
      -- u128 product < 2^80 never overflows; `as u64` truncates
      let fee := amount * cfg.protocol_fee_bps / 10000 % U64
      -- net_amount = amount.checked_sub(fee).unwrap()
      if amount < fee then
        withdrawFail .Panic cfg agent2 vault treasury
      else
        let net := amount - fee
        if fee > 0 then
          if cfg.total_fees_collected + fee ≥ U64 then
            withdrawFail .Panic cfg agent2 (vault - fee) (treasury + fee)
          else
            ⟨.ok (), agent2,
             { cfg with
                 total_fees_collected := cfg.total_fees_collected + fee },
             vault - amount, treasury + fee, net, fee, net⟩
        else
          ⟨.ok (), agent2, cfg, vault - amount, treasury, net, fee, net⟩

/-- withdraw.rs `withdraw_handler`: pause gate (`require_not_paused`),
authority check, NeoShield screening with the persisting
`saturating_add(1)` on the suspicious counter, the circuit-breaker
auto-pause (also persisting), then the reset-check-commit path. -/
def withdraw_handler (cfg0 : BankConfig) (agent0 : Agent)
    (authority destination : Pubkey) (delegate_record : Option Delegate)
    (amount vault treasury : Nat) (current_time : Int) : WithdrawResult :=
  if cfg0.paused then
    withdrawFail .BankPaused cfg0 agent0 vault treasury
  else
    match authority_check agent0 authority delegate_record current_time with
    | .error e => withdrawFail e cfg0 agent0 vault treasury
    | .ok _ =>
      if should_block_transaction (validate_destination destination) then
        -- counter increment persists despite the abort (saturating_add)
        withdrawFail .SuspiciousDestination
          { cfg0 with
              suspicious_activity_count :=
                min (cfg0.suspicious_activity_count + 1) U32MAX }
          agent0 vault treasury
      else if cfg0.auto_pause_threshold > 0 ∧
          cfg0.suspicious_activity_count ≥ cfg0.auto_pause_threshold then
        -- circuit breaker trips; the pause persists despite the abort
        withdrawFail .BankPaused
          { cfg0 with paused := true, pause_reason := 1 }
          agent0 vault treasury
      else
        withdrawCommit cfg0 (reset_period agent0 current_time) amount vault treasury

/-! ## validate_intent.rs : pre-flight dry run of withdraw steps 5-7 -/

/-- validate_intent.rs `validate_intent_handler`.  The Rust handler takes
the agent and vault accounts immutably and returns only a verdict: it
receives no `BankConfig`, so by construction it never consults the pause
flag, the risk screener or the circuit breaker, and it mutates nothing.
`remaining_in_period` uses `saturating_sub` (`Nat` subtraction). -/
def validate_intent_handler (agent : Agent) (vault_balance amount : Nat)
    (execution_time : Option Int) (now : Int) : Except BankError Unit :=
  let check_time := execution_time.getD now
  let period_spend :=
    if check_time > agent.current_period_start + agent.period_duration then 0
    else agent.current_period_spend
  let remaining_in_period := agent.spending_limit - period_spend
  if amount > remaining_in_period then .error .IntentWouldExceedLimit
  else if amount > vault_balance then .error .IntentInsufficientFunds
  else .ok ()

/-- Steps 5-7 of withdraw.rs `withdraw_handler` (lines 141-156) in
isolation: the lazy period reset, the spending-limit check (with its
`checked_add` abort) and the vault-balance check, evaluated at clock
value `t`. -/
def withdrawSteps567 (agent : Agent) (vault amount : Nat) (t : Int) :
    Except BankError Unit :=
  let agent1 :=
    if t > agent.current_period_start + agent.period_duration
    then { agent with current_period_start := t, current_period_spend := 0 }
    else agent
  if agent1.current_period_spend + amount ≥ U64 then .error .Panic
  else if agent1.current_period_spend + amount > agent1.spending_limit then
    .error .SpendingLimitExceeded
  else if vault < amount then .error .InsufficientFunds
  else .ok ()

/-! ## treasury_governance.rs : the treasury governance engine -/

/-- treasury_governance.rs `ProposalStatus`. -/
inductive ProposalStatus where
  | Pending
  | Approved
  | Rejected
  | Executed
  | Expired
deriving DecidableEq, Repr

/-- treasury_governance.rs `TreasuryProposal`. -/
structure TreasuryProposal where
  id : Nat
  proposer : Pubkey
  destination : Pubkey
  amount : Nat
  memo : String
  status : ProposalStatus
  votes_for : Nat
  votes_against : Nat
  created_at : Int
  expires_at : Int
  executed_at : Option Int
deriving DecidableEq, Repr

/-- treasury_governance.rs `AdminRegistry`: the first `admin_count`
slots of the fixed 5-slot admin array are the active admins. -/
structure AdminRegistry where
  admins : List Pubkey
  admin_count : Nat
  threshold : Nat
  proposal_count : Nat
deriving DecidableEq, Repr

/-- The admin membership test both governance handlers perform:
`registry.admins[..admin_count].contains(key)`. -/
def isAdmin (registry : AdminRegistry) (key : Pubkey) : Bool :=
  (registry.admins.take registry.admin_count).contains key

/-- treasury_governance.rs `create_proposal_handler`: admin-only,
treasury must cover the amount, memo truncated to 64 characters, the
proposer auto-votes for, expiry is fixed at 3 days, and the registry's
proposal counter advances (`checked_add` abort at `u64::MAX`). -/
def create_proposal_handler (registry : AdminRegistry)
    (proposer destination : Pubkey) (amount : Nat) (memo : String)
    (treasury : Nat) (now : Int) :
    Except BankError (AdminRegistry × TreasuryProposal) :=
  if ¬isAdmin registry proposer then .error .NotAdmin
  else if treasury < amount then .error .InsufficientTreasuryFunds
  else if registry.proposal_count + 1 ≥ U64 then .error .Panic
  else
    .ok ({ registry with proposal_count := registry.proposal_count + 1 },
      { id := registry.proposal_count
        proposer := proposer
        destination := destination
        amount := amount
        memo := String.mk (memo.toList.take 64)
        status := .Pending
        votes_for := 1
        votes_against := 0
        created_at := now
        expires_at := now + 86400 * 3
        executed_at := none })

/-- treasury_governance.rs `vote_proposal_handler`: admin-only, proposal
must be `Pending`; past-expiry votes set `Expired` and fail (the status
write persists, the vote is not tallied); otherwise the vote is tallied
(`checked_add` abort at `u8::MAX`) and the status is settled, approval
first.  `admin_count - threshold` is the `u8` subtraction of the source,
faithful on registries obeying `threshold ≤ admin_count`, the invariant
`initialize_governance_handler` establishes. -/
def vote_proposal_handler (registry : AdminRegistry) (p : TreasuryProposal)
    (voter : Pubkey) (approve : Bool) (now : Int) :
    Except BankError Unit × TreasuryProposal :=
  if ¬isAdmin registry voter then (.error .NotAdmin, p)
  else if p.status ≠ .Pending then (.error .ProposalNotPending, p)
  else if now > p.expires_at then
    (.error .ProposalExpired, { p with status := .Expired })
  else if approve ∧ p.votes_for + 1 ≥ 256 then (.error .Panic, p)
  else if ¬approve ∧ p.votes_against + 1 ≥ 256 then (.error .Panic, p)
  else
    let p1 :=
      if approve then { p with votes_for := p.votes_for + 1 }
      else { p with votes_against := p.votes_against + 1 }
    if p1.votes_for ≥ registry.threshold then
      (.ok (), { p1 with status := .Approved })
    else if p1.votes_against > registry.admin_count - registry.threshold then
      (.ok (), { p1 with status := .Rejected })
    else
      (.ok (), p1)

/-- Outcome of one `execute_proposal` call. -/
structure ExecOutcome where
  res : Except BankError Unit
  proposal : TreasuryProposal
  treasury : Nat
  destPaid : Nat
deriving DecidableEq, Repr

/-- treasury_governance.rs `execute_proposal_handler`: permissionless;
requires `Approved` status, the matching destination and a funded
treasury, then transfers the amount and marks the proposal `Executed`.
The config account is deserialized only for its treasury bump: the
handler performs no pause check. -/
def execute_proposal_handler (config : BankConfig) (p : TreasuryProposal)
    (destination : Pubkey) (treasury : Nat) (now : Int) : ExecOutcome :=
  if p.status ≠ .Approved then ⟨.error .ProposalNotApproved, p, treasury, 0⟩
  else if destination ≠ p.destination then
    ⟨.error .InvalidDestination, p, treasury, 0⟩
  else if treasury < p.amount then
    ⟨.error .InsufficientTreasuryFunds, p, treasury, 0⟩
  else
    ⟨.ok (), { p with status := .Executed, executed_at := some now },
     treasury - p.amount, p.amount⟩

/-! ## accrue_yield.rs : treasury-funded 5% APY payout -/

/-- Outcome of one `accrue_yield` call. -/
structure AccrueOutcome where
  res : Except BankError Unit
  agent : Agent
  vault : Nat
  treasury : Nat
deriving DecidableEq, Repr

/-- accrue_yield.rs `accrue_yield_handler`: pays the linear 5%-per-annum
yield on `staked_amount` out of the treasury (capped at the treasury
balance) and rolls `last_yield_timestamp` forward.  No pause check is
performed.  The wide `u128` product aborts on overflow (`checked_mul`);
the payout comparison truncates the yield `as u64`. -/
def accrue_yield_handler (config : BankConfig) (agent : Agent)
    (vault treasury : Nat) (current_time : Int) : AccrueOutcome :=
  if agent.staked_amount = 0 then ⟨.ok (), agent, vault, treasury⟩
  else
    let elapsed := current_time - agent.last_yield_timestamp
    if elapsed > 0 then
      if agent.staked_amount * 5 * elapsed.toNat ≥ 2 ^ 128 then
        ⟨.error .Panic, agent, vault, treasury⟩
      else
        let yield_accrued := agent.staked_amount * 5 * elapsed.toNat / 3153600000
        if yield_accrued > 0 then
          let payout :=
            if treasury ≥ yield_accrued % U64 then yield_accrued % U64
            else treasury
          if payout > 0 then
            if agent.staked_amount + payout ≥ U64 ∨
                agent.total_deposited + payout ≥ U64 then
              ⟨.error .Panic, agent, vault + payout, treasury - payout⟩
            else
              ⟨.ok (),
               { agent with
                   staked_amount := agent.staked_amount + payout,
                   total_deposited := agent.total_deposited + payout,
                   last_yield_timestamp := current_time },
               vault + payout, treasury - payout⟩
          else
            ⟨.ok (), { agent with last_yield_timestamp := current_time },
             vault, treasury⟩
        else
          ⟨.ok (), { agent with last_yield_timestamp := current_time },
           vault, treasury⟩
    else
      ⟨.ok (), agent, vault, treasury⟩

/-! ## agentic_hooks.rs : the yield hook trigger engine -/

/-- state.rs `HookCondition`. -/
inductive HookCondition where
  | BalanceAbove (threshold : Nat)
  | TimeElapsed (interval : Int)
  | YieldAbove (threshold : Nat)
deriving DecidableEq, Repr

/-- state.rs `YieldProtocol`. -/
inductive YieldProtocol where
  | Internal
  | Jupiter
  | Meteora
  | Marinade
deriving DecidableEq, Repr

/-- state.rs `YieldStrategy` (the `agent` back-reference is enforced by
the account constraints before the handler runs). -/
structure YieldStrategy where
  condition : HookCondition
  protocol : YieldProtocol
  deploy_percentage : Nat
  enabled : Bool
  last_triggered : Int
  trigger_count : Nat
deriving DecidableEq, Repr

/-- The two's-complement reinterpretation an `i64 as u128` cast performs
(for a negative elapsed time the cast wraps to a huge value). -/
def i64AsU128 (x : Int) : Nat := (x % (2 : Int) ^ 128).toNat

/-- The condition evaluation of agentic_hooks.rs
`trigger_yield_hook_handler` (lines 109-126).  `YieldAbove` recomputes
the pending yield with the accrue_yield formula: `checked_mul` abort on
`u128` overflow, quotient truncated `as u64`. -/
def evalHookCondition (strategy : YieldStrategy) (agent : Agent)
    (now : Int) : Except BankError Bool :=
  match strategy.condition with
  | .BalanceAbove threshold => .ok (decide (agent.staked_amount ≥ threshold))
  | .TimeElapsed interval => .ok (decide (now - strategy.last_triggered ≥ interval))
  | .YieldAbove threshold =>
    let elapsed := i64AsU128 (now - agent.last_yield_timestamp)
    if agent.staked_amount * 5 * elapsed ≥ 2 ^ 128 then .error .Panic
    else
      .ok (decide (agent.staked_amount * 5 * elapsed / 3153600000 % U64 ≥ threshold))

/-- Outcome of one `trigger_yield_hook` call (`deploy_amount` is the
amount the handler dispatches to the protocol connector; 0 on failure). -/
structure TriggerOutcome where
  res : Except BankError Unit
  strategy : YieldStrategy
  deploy_amount : Nat
deriving DecidableEq, Repr

/-- agentic_hooks.rs `trigger_yield_hook_handler`: permissionless (the
cranker's identity is never inspected); requires `enabled`, then the
condition; on success computes the deploy amount
(`staked_amount * deploy_percentage / 100` in `u128`, truncated
`as u64`), logs the dispatch for every protocol variant, stamps
`last_triggered` and advances `trigger_count` (`checked_add` abort at
`u64::MAX`, which in the source fires after `last_triggered` is set). -/
def trigger_yield_hook_handler (strategy : YieldStrategy) (agent : Agent)
    (now : Int) : TriggerOutcome :=
  if !strategy.enabled then ⟨.error .HookDisabled, strategy, 0⟩
  else
    match evalHookCondition strategy agent now with
    | .error e => ⟨.error e, strategy, 0⟩
    | .ok false => ⟨.error .HookConditionNotMet, strategy, 0⟩
    | .ok true =>
      let deploy_amount := agent.staked_amount * strategy.deploy_percentage / 100 % U64
      if strategy.trigger_count + 1 ≥ U64 then
        ⟨.error .Panic, { strategy with last_triggered := now }, deploy_amount⟩
      else
        ⟨.ok (),
         { strategy with
             last_triggered := now,
             trigger_count := strategy.trigger_count + 1 },
         deploy_amount⟩

/-! ## Multi-call runs used by the invariant claims -/

/-- The per-call inputs of one `withdraw` invocation (the vault and
treasury balances are per-call inputs: deposits and other funding events
may occur between the withdrawals of a sequence). -/
structure WInput where
  authority : Pubkey
  destination : Pubkey
  delegate_record : Option Delegate
  amount : Nat
  vault : Nat
  treasury : Nat
  time : Int
deriving Repr

/-- Run a sequence of `withdraw` calls, threading the agent and config
accounts; `none` as soon as one call fails. -/
def runWithdrawSeq (cfg : BankConfig) (ag : Agent) :
    List WInput → Option (BankConfig × Agent)
  | [] => some (cfg, ag)
  | c :: rest =>
    let r := withdraw_handler cfg ag c.authority c.destination
      c.delegate_record c.amount c.vault c.treasury c.time
    match r.res with
    | .ok _ => runWithdrawSeq r.config r.agent rest
    | .error _ => none

/-- One governance call on a proposal after its creation. -/
inductive GovOp where
  | vote (voter : Pubkey) (approve : Bool) (now : Int)
  | execute (destination : Pubkey) (treasury : Nat) (now : Int)
deriving Repr

/-- Apply one governance call to a proposal (the registry is never
mutated by `vote_proposal_handler` or `execute_proposal_handler`). -/
def applyGovOp (config : BankConfig) (registry : AdminRegistry)
    (p : TreasuryProposal) : GovOp → Except BankError Unit × TreasuryProposal
  | .vote voter approve now => vote_proposal_handler registry p voter approve now
  | .execute destination treasury now =>
    let r := execute_proposal_handler config p destination treasury now
    (r.res, r.proposal)

/-- The proposal after a sequence of governance calls (failed calls keep
the state the handler left, exactly as the handlers return it). -/
def runGov (config : BankConfig) (registry : AdminRegistry)
    (p : TreasuryProposal) : List GovOp → TreasuryProposal
  | [] => p
  | op :: rest => runGov config registry (applyGovOp config registry p op).2 rest

/-- Number of successful `execute` calls in a run. -/
def execCount (config : BankConfig) (registry : AdminRegistry)
    (p : TreasuryProposal) : List GovOp → Nat
  | [] => 0
  | op :: rest =>
    let r := applyGovOp config registry p op
    (match op, r.1 with
     | .execute _ _ _, .ok _ => 1
     | _, _ => 0) + execCount config registry r.2 rest

/-- The status edges the spec allows, plus reflexive non-moves (a call
that fails or that tallies without settling leaves the status where it
was). -/
def allowedTransition : ProposalStatus → ProposalStatus → Prop
  | .Pending, .Pending => True
  | .Pending, .Approved => True
  | .Pending, .Rejected => True
  | .Pending, .Expired => True
  | .Approved, .Approved => True
  | .Approved, .Executed => True
  | .Rejected, .Rejected => True
  | .Executed, .Executed => True
  | .Expired, .Expired => True
  | _, _ => False

instance (a b : ProposalStatus) : Decidable (allowedTransition a b) := by
  cases a <;> cases b <;> simp [allowedTransition] <;> infer_instance

/-- Every adjacent status pair of a governance run is an allowed edge. -/
def stepsAllowed (config : BankConfig) (registry : AdminRegistry)
    (p : TreasuryProposal) : List GovOp → Prop
  | [] => True
  | op :: rest =>
    allowedTransition p.status (applyGovOp config registry p op).2.status ∧
    stepsAllowed config registry (applyGovOp config registry p op).2 rest

/-- Repeated `vote_proposal_handler` calls by one fixed voter (always
approving), at one fixed clock value. -/
def iterateVotes (registry : AdminRegistry) (p : TreasuryProposal)
    (voter : Pubkey) (now : Int) : Nat → TreasuryProposal
  | 0 => p
  | n + 1 => (vote_proposal_handler registry
      (iterateVotes registry p voter now n) voter true now).2

/-! ## Concrete fixtures used by witness and counterexample theorems -/

/-- A live config: 0.25% fee, unpaused, breaker threshold 10, counter 0. -/
def cfgW : BankConfig := ⟨[9], 25, 0, false, 0, 0, 10, 0⟩

/-- An agent with a 5000-lamport limit per 86400-second period. -/
def agW : Agent := ⟨[1], 5000, 86400, 0, 0, 0, 0, 0⟩

/-- First withdrawal call of the witness sequence (owner, safe
destination, 2000 lamports). -/
def callW1 : WInput := ⟨[1], [1, 2], none, 2000, 10000, 0, 100⟩

/-- Second withdrawal call of the witness sequence (3000 lamports). -/
def callW2 : WInput := ⟨[1], [1, 2], none, 3000, 8000, 0, 200⟩

/-- A paused config (maintenance pause, reason 2). -/
def cfgPaused : BankConfig := ⟨[9], 25, 0, true, 2, 0, 10, 0⟩

/-- An approved 500-lamport treasury proposal. -/
def pApproved : TreasuryProposal :=
  ⟨0, [1], [2, 3], 500, "", .Approved, 2, 0, 0, 259200, none⟩

/-- An agent with a staked balance accruing yield. -/
def agStaked : Agent := ⟨[1], 5000, 86400, 0, 0, 0, 1000000000, 0⟩

/-- A config whose suspicious counter sits at `u32::MAX` (breaker off). -/
def cfgSat : BankConfig := ⟨[9], 25, 0, false, 0, 4294967295, 0, 0⟩

/-- The all-zero (burn) address. -/
def zeroAddr : Pubkey := List.replicate 32 0

/-- Scenario C config: threshold 10, counter already at 9. -/
def cfgC : BankConfig := ⟨[9], 25, 0, false, 0, 9, 10, 0⟩

/-- A 200% fee config (fee_bps = 20000, breaker off): `u16` admits any
basis-point value, initialize_bank.rs never bounds it. -/
def cfg8 : BankConfig := ⟨[9], 20000, 0, false, 0, 0, 0, 0⟩

/-- An agent whose limit admits a 2^63-lamport withdrawal. -/
def ag8 : Agent := ⟨[1], 9223372036854775808, 86400, 0, 0, 0, 0, 0⟩

/-- A three-admin registry with threshold 2. -/
def reg3 : AdminRegistry := ⟨[[1], [2], [3]], 3, 2, 1⟩

/-- A fresh pending proposal by admin `[1]` (auto-vote `votes_for = 1`). -/
def pFresh : TreasuryProposal :=
  ⟨0, [1], [4, 5], 1000, "", .Pending, 1, 0, 0, 259200, none⟩

/-- The 3-admin registry before any proposal (proposal counter 0). -/
def reg30 : AdminRegistry := ⟨[[1], [2], [3]], 3, 2, 0⟩

/-- Witness governance run: co-admin approval, then execution. -/
def opsW : List GovOp := [.vote [2] true 50, .execute [4, 5] 2000 60]

/-- An enabled yield-above hook (threshold 0.1 SOL, deploy 50% to
Marinade, already triggered 3 times). -/
def stratYield : YieldStrategy := ⟨.YieldAbove 100000000, .Marinade, 50, true, 0, 3⟩

/-! ## Helper lemmas -/

/-- Boolean `List.all (· == c)` is the decidable form of all-bytes-equal-c. -/
theorem all_beq_iff (b : List Nat) (c : Nat) :
    b.all (fun x => x == c) = true ↔ ∀ x ∈ b, x = c := by
  simp [List.all_eq_true]

/-! ## C9 : the destination risk screener -/

/-- C9: the risk screener is a pure function of the 32 address bytes:
all-zero bytes classify as `{is_safe := false, risk_score := 100,
reason_code := 3 (blacklisted)}`; nonzero all-identical bytes classify
as `{false, 95, 2 (suspicious_pattern)}`; any other byte pattern
classifies as `{true, 0, 0 (safe)}`; and a result is blocked exactly
when `!is_safe || risk_score > 80`, hence a destination is blocked
exactly when its bytes are all identical. -/
theorem screener_classification (b : List Nat) (h32 : b.length = 32) :
    ((∀ x ∈ b, x = 0) → validate_destination b = ⟨false, 100, 3⟩)
    ∧ (∀ c, c ≠ 0 → (∀ x ∈ b, x = c) → validate_destination b = ⟨false, 95, 2⟩)
    ∧ ((¬∀ x ∈ b, ∀ y ∈ b, x = y) → validate_destination b = ⟨true, 0, 0⟩)
    ∧ (∀ r : ValidationResult,
        should_block_transaction r = true ↔ r.is_safe = false ∨ r.risk_score > 80)
    ∧ (should_block_transaction (validate_destination b) = true ↔
        ∀ x ∈ b, ∀ y ∈ b, x = y) := by
  have hblock : ∀ r : ValidationResult,
      should_block_transaction r = true ↔ r.is_safe = false ∨ r.risk_score > 80 := by
    intro r
    cases r with
    | mk s k c => cases s <;> simp [should_block_transaction]
  obtain ⟨a, t, rfl⟩ : ∃ a t, b = a :: t := by
    cases b with
    | nil => simp at h32
    | cons a t => exact ⟨a, t, rfl⟩
  have hsame : ∀ c, (∀ x ∈ a :: t, x = c) → a = c := fun c h => h a (by simp)
  refine ⟨?_, ?_, ?_, hblock, ?_⟩
  · intro h
    have : (a :: t).all (fun x => x == 0) = true := (all_beq_iff _ _).2 h
    simp [validate_destination, this]
  · intro c hc h
    have ha : a = c := hsame c h
    have h0 : (a :: t).all (fun x => x == 0) = false := by
      simp [List.all_cons, ha, hc]
    have h1 : (a :: t).all (fun x => x == a) = true := by
      refine (all_beq_iff _ _).2 ?_
      intro x hx
      rw [h x hx, ha]
    simp [validate_destination, h0, h1]
  · intro h
    have h1 : (a :: t).all (fun x => x == a) = false := by
      by_contra hcon
      rw [Bool.not_eq_false, all_beq_iff] at hcon
      exact h fun x hx y hy => (hcon x hx).trans (hcon y hy).symm
    have h0 : (a :: t).all (fun x => x == 0) = false := by
      by_contra hcon
      rw [Bool.not_eq_false, all_beq_iff] at hcon
      refine h fun x hx y hy => ?_
      rw [hcon x hx, hcon y hy]
    simp [validate_destination, h0, h1]
  · constructor
    · intro hb
      by_contra h
      have h1 : (a :: t).all (fun x => x == a) = false := by
        by_contra hcon
        rw [Bool.not_eq_false, all_beq_iff] at hcon
        exact h fun x hx y hy => (hcon x hx).trans (hcon y hy).symm
      have h0 : (a :: t).all (fun x => x == 0) = false := by
        by_contra hcon
        rw [Bool.not_eq_false, all_beq_iff] at hcon
        refine h fun x hx y hy => ?_
        rw [hcon x hx, hcon y hy]
      rw [show validate_destination (a :: t) = ⟨true, 0, 0⟩ by
            simp [validate_destination, h0, h1]] at hb
      simp [should_block_transaction] at hb
    · intro h
      have ha : ∀ x ∈ a :: t, x = a := fun x hx => h x hx a (by simp)
      by_cases haz : a = 0
      · have : (a :: t).all (fun x => x == 0) = true :=
          (all_beq_iff _ _).2 fun x hx => (ha x hx).trans haz
        simp [validate_destination, this, should_block_transaction]
      · have h0 : (a :: t).all (fun x => x == 0) = false := by
          simp [List.all_cons, haz]
        have h1 : (a :: t).all (fun x => x == a) = true := (all_beq_iff _ _).2 ha
        simp [validate_destination, h0, h1, should_block_transaction]

/-- Witness for C9 at concrete addresses: the burn address, an
all-0x07 address and an ordinary mixed address. -/
theorem screener_classification_witness :
    validate_destination (List.replicate 32 0) = ⟨false, 100, 3⟩
    ∧ validate_destination (List.replicate 32 7) = ⟨false, 95, 2⟩
    ∧ validate_destination (1 :: List.replicate 31 0) = ⟨true, 0, 0⟩ :=
  ⟨(screener_classification (List.replicate 32 0) (by decide)).1 (by decide),
   ((screener_classification (List.replicate 32 7) (by decide)).2.1) 7
     (by decide) (by decide),
   ((screener_classification (1 :: List.replicate 31 0) (by decide)).2.2.1)
     (by decide)⟩

/-! ## Concrete fixtures used by the witness theorems -/

/-- On success, `withdrawCommit` returns exactly the committed record,
and its guards passed. -/
theorem withdrawCommit_ok_shape (cfg : BankConfig) (ag1 : Agent)
    (amount vault treasury : Nat)
    (h : (withdrawCommit cfg ag1 amount vault treasury).res = .ok ()) :
    withdrawCommit cfg ag1 amount vault treasury =
      ⟨.ok (),
       { ag1 with current_period_spend := ag1.current_period_spend + amount },
       (if amount * cfg.protocol_fee_bps / 10000 % U64 = 0 then cfg
        else { cfg with total_fees_collected :=
            cfg.total_fees_collected + amount * cfg.protocol_fee_bps / 10000 % U64 }),
       vault - amount,
       treasury + amount * cfg.protocol_fee_bps / 10000 % U64,
       amount - amount * cfg.protocol_fee_bps / 10000 % U64,
       amount * cfg.protocol_fee_bps / 10000 % U64,
       amount - amount * cfg.protocol_fee_bps / 10000 % U64⟩
    ∧ ag1.current_period_spend + amount ≤ ag1.spending_limit
    ∧ amount ≤ vault
    ∧ amount * cfg.protocol_fee_bps / 10000 % U64 ≤ amount := by
  simp only [withdrawCommit] at h ⊢
  split_ifs at h ⊢ <;>
    simp_all [withdrawFail]

/-- On success, the full handler reduces to `withdrawCommit` on the
reset agent, and every gate passed. -/
theorem withdraw_ok_eq_commit (cfg : BankConfig) (ag : Agent)
    (authority destination : Pubkey) (delegate_record : Option Delegate)
    (amount vault treasury : Nat) (t : Int)
    (h : (withdraw_handler cfg ag authority destination delegate_record
        amount vault treasury t).res = .ok ()) :
    withdraw_handler cfg ag authority destination delegate_record
        amount vault treasury t =
      withdrawCommit cfg (reset_period ag t) amount vault treasury
    ∧ cfg.paused = false
    ∧ authority_check ag authority delegate_record t = .ok ()
    ∧ should_block_transaction (validate_destination destination) = false
    ∧ ¬(cfg.auto_pause_threshold > 0 ∧
        cfg.suspicious_activity_count ≥ cfg.auto_pause_threshold) := by
  by_cases hp : cfg.paused
  · simp [withdraw_handler, hp, withdrawFail] at h
  · cases hauth : authority_check ag authority delegate_record t with
    | error e => simp [withdraw_handler, hp, hauth, withdrawFail] at h
    | ok u =>
      simp only [withdraw_handler, hp, hauth, if_false, Bool.false_eq_true] at h ⊢
      split_ifs at h ⊢ with h1 h2
      · simp [withdrawFail] at h
      · simp [withdrawFail] at h
      · refine ⟨?_, ?_, ?_, ?_, ?_⟩ <;> simp_all


/-- Along a successful run whose calls never trigger a period reset, the
period anchor and limit are unchanged and the period spend accumulates
the withdrawn amounts, staying within the limit. -/
theorem runWithdrawSeq_no_reset (calls : List WInput) :
    ∀ cfg ag out,
    (∀ c ∈ calls, ¬c.time > ag.current_period_start + ag.period_duration) →
    runWithdrawSeq cfg ag calls = some out →
    out.2.spending_limit = ag.spending_limit
    ∧ out.2.current_period_start = ag.current_period_start
    ∧ out.2.period_duration = ag.period_duration
    ∧ out.2.current_period_spend =
        ag.current_period_spend + (calls.map WInput.amount).sum
    ∧ (calls ≠ [] → out.2.current_period_spend ≤ out.2.spending_limit) := by
  induction calls with
  | nil =>
    intro cfg ag out h hrun
    simp only [runWithdrawSeq, Option.some.injEq] at hrun
    subst hrun
    simp
  | cons c rest ih =>
    intro cfg ag out h hrun
    cases hres : (withdraw_handler cfg ag c.authority c.destination
        c.delegate_record c.amount c.vault c.treasury c.time).res with
    | error e =>
      simp only [runWithdrawSeq, hres] at hrun
      simp at hrun
    | ok u =>
      cases u
      obtain ⟨heq, -, -, -, -⟩ := withdraw_ok_eq_commit cfg ag c.authority
        c.destination c.delegate_record c.amount c.vault c.treasury c.time hres
      have hnr : reset_period ag c.time = ag := by
        have hc := h c (by simp)
        simp [reset_period, hc]
      rw [hnr] at heq
      obtain ⟨hcommit, hbound, -, -⟩ := withdrawCommit_ok_shape cfg ag
        c.amount c.vault c.treasury (by rw [← heq]; exact hres)
      rw [hcommit] at heq
      simp only [runWithdrawSeq, heq] at hrun
      have hrest : ∀ c2 ∈ rest,
          ¬c2.time > ({ ag with current_period_spend :=
              ag.current_period_spend + c.amount } : Agent).current_period_start +
            ({ ag with current_period_spend :=
              ag.current_period_spend + c.amount } : Agent).period_duration := by
        intro c2 hc2
        exact h c2 (by simp [hc2])
      obtain ⟨h1, h2, h3, h4, h5⟩ := ih _ _ out hrest hrun
      refine ⟨by simpa using h1, by simpa using h2, by simpa using h3, ?_, ?_⟩
      · simp only [List.map_cons, List.sum_cons]
        simp at h4
        omega
      · intro _
        cases rest with
        | nil =>
          simp only [runWithdrawSeq, Option.some.injEq] at hrun
          subst hrun
          simpa using hbound
        | cons c2 rest2 => exact h5 (by simp)

/-- C1: after every successful withdrawal the agent satisfies
`current_period_spend ≤ spending_limit`; and over any sequence of
successful withdrawals none of whose checks falls past the period
boundary (no period reset), the withdrawn amounts sum to at most the
spending limit. -/
theorem withdraw_spending_limit_invariant :
    (∀ cfg ag authority destination delegate_record amount vault treasury t,
      (withdraw_handler cfg ag authority destination delegate_record
          amount vault treasury t).res = .ok () →
      (withdraw_handler cfg ag authority destination delegate_record
          amount vault treasury t).agent.current_period_spend ≤
        (withdraw_handler cfg ag authority destination delegate_record
          amount vault treasury t).agent.spending_limit)
    ∧ (∀ cfg ag calls out,
        (∀ c ∈ calls, ¬c.time > ag.current_period_start + ag.period_duration) →
        runWithdrawSeq cfg ag calls = some out →
        (calls.map WInput.amount).sum ≤ ag.spending_limit) := by
  constructor
  · intro cfg ag authority destination delegate_record amount vault treasury t h
    obtain ⟨heq, -, -, -, -⟩ := withdraw_ok_eq_commit cfg ag authority
      destination delegate_record amount vault treasury t h
    obtain ⟨hcommit, hbound, -, -⟩ := withdrawCommit_ok_shape cfg
      (reset_period ag t) amount vault treasury (by rw [← heq]; exact h)
    rw [heq, hcommit]
    simpa using hbound
  · intro cfg ag calls out h hrun
    obtain ⟨h1, -, -, h4, h5⟩ := runWithdrawSeq_no_reset calls cfg ag out h hrun
    cases calls with
    | nil => simp
    | cons c rest =>
      have := h5 (by simp)
      omega


/-- Witness for C1: a concrete two-withdrawal sequence (2000 then 3000
against a 5000 limit, same period) succeeds and its amounts sum to the
limit; the single-call bound holds at the first call. -/
theorem withdraw_spending_limit_invariant_witness :
    runWithdrawSeq cfgW agW [callW1, callW2] =
      some ({ cfgW with total_fees_collected := 12 },
            { agW with current_period_spend := 5000 })
    ∧ ([callW1, callW2].map WInput.amount).sum ≤ agW.spending_limit
    ∧ (withdraw_handler cfgW agW [1] [1, 2] none 3000 10000 0 100).agent.current_period_spend ≤
        (withdraw_handler cfgW agW [1] [1, 2] none 3000 10000 0 100).agent.spending_limit :=
  ⟨by decide,
   withdraw_spending_limit_invariant.2 cfgW agW [callW1, callW2]
     ({ cfgW with total_fees_collected := 12 },
      { agW with current_period_spend := 5000 }) (by decide) (by decide),
   withdraw_spending_limit_invariant.1 cfgW agW [1] [1, 2] none 3000 10000 0 100
     (by decide)⟩


/-- C2 counterexample: with `paused = true`, `execute_proposal_handler`
still succeeds and drains 500 lamports from the treasury, and
`accrue_yield_handler` still pays the treasury balance out to the
vault: neither consults the pause flag. -/
theorem paused_fund_movement_counterexample :
    cfgPaused.paused = true
    ∧ (execute_proposal_handler cfgPaused pApproved [2, 3] 1000 50).res = .ok ()
    ∧ (execute_proposal_handler cfgPaused pApproved [2, 3] 1000 50).treasury = 500
    ∧ (execute_proposal_handler cfgPaused pApproved [2, 3] 1000 50).destPaid = 500
    ∧ (accrue_yield_handler cfgPaused agStaked 0 1000 63072000).res = .ok ()
    ∧ (accrue_yield_handler cfgPaused agStaked 0 1000 63072000).treasury = 0
    ∧ (accrue_yield_handler cfgPaused agStaked 0 1000 63072000).vault = 1000 := by
  decide

/-- C2 (amended): while `paused` is true every `withdraw` call fails
`BankPaused` with all accounts untouched and no funds moved; but
`execute_proposal_handler` and `accrue_yield_handler` never consult the
config (beyond its treasury bump), so pausing does not affect them. -/
theorem paused_blocks_withdraw (cfg : BankConfig) (ag : Agent)
    (authority destination : Pubkey) (delegate_record : Option Delegate)
    (amount vault treasury : Nat) (t : Int)
    (hp : cfg.paused = true) :
    withdraw_handler cfg ag authority destination delegate_record
        amount vault treasury t =
      withdrawFail .BankPaused cfg ag vault treasury
    ∧ (∀ cfg2 p d tr now, execute_proposal_handler cfg p d tr now =
        execute_proposal_handler cfg2 p d tr now)
    ∧ (∀ cfg2 ag2 v tr now, accrue_yield_handler cfg ag2 v tr now =
        accrue_yield_handler cfg2 ag2 v tr now) := by
  refine ⟨by simp [withdraw_handler, hp], fun cfg2 p d tr now => rfl,
    fun cfg2 ag2 v tr now => rfl⟩

/-- Witness for the amended C2 at a concrete paused state. -/
theorem paused_blocks_withdraw_witness :
    cfgPaused.paused = true
    ∧ withdraw_handler cfgPaused agW [1] [1, 2] none 100 1000 0 0 =
        withdrawFail .BankPaused cfgPaused agW 1000 0 :=
  ⟨rfl, (paused_blocks_withdraw cfgPaused agW [1] [1, 2] none 100 1000 0 0 rfl).1⟩

/-- C3 counterexample: with the counter at `u32::MAX`, a withdrawal to
the burn address still fails `SuspiciousDestination` but the counter is
NOT incremented by exactly 1 (`saturating_add` leaves it unchanged). -/
theorem suspicious_counter_saturation_counterexample :
    (withdraw_handler cfgSat agW [1] zeroAddr none 10 100 0 5).res =
      .error .SuspiciousDestination
    ∧ (withdraw_handler cfgSat agW [1] zeroAddr none 10 100 0 5).config.suspicious_activity_count =
        cfgSat.suspicious_activity_count
    ∧ cfgSat.suspicious_activity_count + 1 ≠ cfgSat.suspicious_activity_count := by
  decide

/-- C3 (amended): below the `u32::MAX` saturation point, a blocked
destination makes `withdraw` fail `SuspiciousDestination` with the
counter incremented by exactly 1, the pause flag untouched (the breaker
check is unreached) and no funds moved; and once
`auto_pause_threshold > 0` and the incremented counter reaches it, a
subsequent `withdraw` whose destination passes screening trips the
breaker: `paused := true`, `pause_reason := 1` (Security), failure
`BankPaused`, no funds moved. -/
theorem suspicious_then_breaker (cfg : BankConfig) (ag ag2 : Agent)
    (auth auth2 dest1 dest2 : Pubkey) (del del2 : Option Delegate)
    (a1 a2 v1 v2 tr1 tr2 : Nat) (t1 t2 : Int)
    (hp : cfg.paused = false)
    (hauth : authority_check ag auth del t1 = .ok ())
    (hauth2 : authority_check ag2 auth2 del2 t2 = .ok ())
    (hblock : should_block_transaction (validate_destination dest1) = true)
    (hsafe : should_block_transaction (validate_destination dest2) = false)
    (hth : 0 < cfg.auto_pause_threshold)
    (hcnt : cfg.suspicious_activity_count < U32MAX)
    (htrip : cfg.auto_pause_threshold ≤ cfg.suspicious_activity_count + 1) :
    withdraw_handler cfg ag auth dest1 del a1 v1 tr1 t1 =
      withdrawFail .SuspiciousDestination
        { cfg with
            suspicious_activity_count := cfg.suspicious_activity_count + 1 }
        ag v1 tr1
    ∧ withdraw_handler
        { cfg with
            suspicious_activity_count := cfg.suspicious_activity_count + 1 }
        ag2 auth2 dest2 del2 a2 v2 tr2 t2 =
      withdrawFail .BankPaused
        { cfg with
            suspicious_activity_count := cfg.suspicious_activity_count + 1
            paused := true
            pause_reason := 1 }
        ag2 v2 tr2 := by
  have hmin : min (cfg.suspicious_activity_count + 1) U32MAX =
      cfg.suspicious_activity_count + 1 := by
    unfold U32MAX at hcnt ⊢
    omega
  constructor
  · simp [withdraw_handler, hp, hauth, hblock, hmin]
  · simp [withdraw_handler, hp, hauth2, hsafe, hth, htrip]

/-- Witness for the amended C3: Scenario C (threshold 10, counter 9). -/
theorem suspicious_then_breaker_witness :
    cfgC.paused = false
    ∧ cfgC.auto_pause_threshold = 10
    ∧ cfgC.suspicious_activity_count = 9
    ∧ withdraw_handler cfgC agW [1] zeroAddr none 10 100 0 5 =
        withdrawFail .SuspiciousDestination
          { cfgC with suspicious_activity_count := 10 } agW 100 0
    ∧ withdraw_handler { cfgC with suspicious_activity_count := 10 }
        agW [1] [1, 2] none 10 100 0 6 =
        withdrawFail .BankPaused
          { cfgC with
              suspicious_activity_count := 10
              paused := true
              pause_reason := 1 }
          agW 100 0 := by
  have h := suspicious_then_breaker cfgC agW agW [1] [1] zeroAddr [1, 2]
    none none 10 10 100 100 0 0 5 6 rfl (by decide) (by decide)
    (by decide) (by decide) (by decide) (by decide) (by decide)
  exact ⟨rfl, rfl, rfl, h.1, h.2⟩

/-- C8 counterexample: with `fee_bps = 20000` (a legal `u16` the
initializer never bounds) and `amount = 2^63`, the withdrawal succeeds
with `fee = 0`, yet `floor(amount * fee_bps / 10000) = 2^64`: the
`as u64` cast truncated the fee, so `fee` is not the claimed floor. -/
theorem fee_truncation_counterexample :
    (withdraw_handler cfg8 ag8 [1] [1, 2] none 9223372036854775808
        9223372036854775808 0 0).res = .ok ()
    ∧ (withdraw_handler cfg8 ag8 [1] [1, 2] none 9223372036854775808
        9223372036854775808 0 0).fee = 0
    ∧ 9223372036854775808 * cfg8.protocol_fee_bps / 10000 = 18446744073709551616
    ∧ (withdraw_handler cfg8 ag8 [1] [1, 2] none 9223372036854775808
        9223372036854775808 0 0).fee ≠
        9223372036854775808 * cfg8.protocol_fee_bps / 10000 := by
  decide

/-- C8 (amended): every successful withdrawal splits exactly:
`fee = floor(amount * fee_bps / 10000)` truncated to 64 bits,
`net = amount - fee`, `fee + net = amount` with no rounding loss; the
truncation is the identity whenever `amount * fee_bps / 10000 < 2^64`
(in particular for any `fee_bps ≤ 10000`); the fee goes to the treasury
(accumulating `total_fees_collected` exactly when `fee > 0`) and the net
goes to the destination. -/
theorem withdraw_fee_split (cfg : BankConfig) (ag : Agent)
    (authority destination : Pubkey) (delegate_record : Option Delegate)
    (amount vault treasury : Nat) (t : Int)
    (h : (withdraw_handler cfg ag authority destination delegate_record
        amount vault treasury t).res = .ok ()) :
    (withdraw_handler cfg ag authority destination delegate_record
        amount vault treasury t).fee =
      amount * cfg.protocol_fee_bps / 10000 % U64
    ∧ (withdraw_handler cfg ag authority destination delegate_record
        amount vault treasury t).net =
      amount - amount * cfg.protocol_fee_bps / 10000 % U64
    ∧ (withdraw_handler cfg ag authority destination delegate_record
        amount vault treasury t).fee +
      (withdraw_handler cfg ag authority destination delegate_record
        amount vault treasury t).net = amount
    ∧ (amount * cfg.protocol_fee_bps / 10000 < U64 →
        (withdraw_handler cfg ag authority destination delegate_record
          amount vault treasury t).fee =
        amount * cfg.protocol_fee_bps / 10000)
    ∧ (withdraw_handler cfg ag authority destination delegate_record
        amount vault treasury t).destPaid =
      (withdraw_handler cfg ag authority destination delegate_record
        amount vault treasury t).net
    ∧ (withdraw_handler cfg ag authority destination delegate_record
        amount vault treasury t).treasury =
      treasury + (withdraw_handler cfg ag authority destination delegate_record
        amount vault treasury t).fee
    ∧ (withdraw_handler cfg ag authority destination delegate_record
        amount vault treasury t).vault = vault - amount
    ∧ ((withdraw_handler cfg ag authority destination delegate_record
        amount vault treasury t).fee > 0 →
        (withdraw_handler cfg ag authority destination delegate_record
          amount vault treasury t).config.total_fees_collected =
        cfg.total_fees_collected +
          (withdraw_handler cfg ag authority destination delegate_record
            amount vault treasury t).fee)
    ∧ ((withdraw_handler cfg ag authority destination delegate_record
        amount vault treasury t).fee = 0 →
        (withdraw_handler cfg ag authority destination delegate_record
          amount vault treasury t).config = cfg) := by
  obtain ⟨heq, -, -, -, -⟩ := withdraw_ok_eq_commit cfg ag authority
    destination delegate_record amount vault treasury t h
  obtain ⟨hcommit, -, -, hfa⟩ := withdrawCommit_ok_shape cfg
    (reset_period ag t) amount vault treasury (by rw [← heq]; exact h)
  rw [heq, hcommit]
  dsimp only
  refine ⟨rfl, rfl, by omega, ?_, rfl, rfl, rfl, ?_, ?_⟩
  · intro hlt
    exact Nat.mod_eq_of_lt hlt
  · intro hpos
    rw [if_neg (by omega)]
  · intro h0
    rw [if_pos h0]

/-- Witness for the amended C8 at a 0.25% fee: 3000 splits as 7 + 2993. -/
theorem withdraw_fee_split_witness :
    (withdraw_handler cfgW agW [1] [1, 2] none 3000 10000 0 100).res = .ok ()
    ∧ (withdraw_handler cfgW agW [1] [1, 2] none 3000 10000 0 100).fee +
      (withdraw_handler cfgW agW [1] [1, 2] none 3000 10000 0 100).net = 3000 :=
  ⟨by decide,
   (withdraw_fee_split cfgW agW [1] [1, 2] none 3000 10000 0 100 (by decide)).2.2.1⟩


/-- C7: `validate_intent_handler` is non-mutating by construction (it
returns only a verdict and is not even passed the config, so it cannot
consult the risk screener, circuit breaker or pause flag), and on any
agent satisfying the running invariant
`current_period_spend ≤ spending_limit` (with a well-formed `u64`
limit), its verdict agrees with steps 5-7 of withdraw evaluated at
`execution_time` (default `now`): it succeeds exactly when the amount,
after the hypothetical period reset, exceeds neither the remaining
limit (else `IntentWouldExceedLimit`) nor the vault balance (else
`IntentInsufficientFunds`). -/
theorem validate_intent_matches_withdraw (ag : Agent)
    (vault amount : Nat) (et : Option Int) (now : Int)
    (hwf : ag.current_period_spend ≤ ag.spending_limit)
    (hlim : ag.spending_limit < U64) :
    (validate_intent_handler ag vault amount et now = .ok () ↔
      withdrawSteps567 ag vault amount (et.getD now) = .ok ())
    ∧ (validate_intent_handler ag vault amount et now =
        .error .IntentWouldExceedLimit ↔
      amount > ag.spending_limit -
        (if et.getD now > ag.current_period_start + ag.period_duration then 0
         else ag.current_period_spend))
    ∧ (validate_intent_handler ag vault amount et now =
        .error .IntentInsufficientFunds ↔
      (amount ≤ ag.spending_limit -
        (if et.getD now > ag.current_period_start + ag.period_duration then 0
         else ag.current_period_spend) ∧ vault < amount)) := by
  by_cases hrt : et.getD now > ag.current_period_start + ag.period_duration
  · simp only [validate_intent_handler, withdrawSteps567, if_pos hrt]
    refine ⟨?_, ?_, ?_⟩ <;> split_ifs <;> simp_all <;> omega
  · simp only [validate_intent_handler, withdrawSteps567, if_neg hrt]
    refine ⟨?_, ?_, ?_⟩ <;> split_ifs <;> simp_all <;> omega

/-- Witness for C7: a dry run at a future execution time that crosses
the period boundary agrees with the withdraw check replay. -/
theorem validate_intent_matches_withdraw_witness :
    validate_intent_handler { agW with current_period_spend := 4000 }
        10000 3000 (some 100000) 50 = .ok ()
    ∧ withdrawSteps567 { agW with current_period_spend := 4000 }
        10000 3000 ((some (100000 : Int)).getD 50) = .ok () := by
  have h := validate_intent_matches_withdraw
    { agW with current_period_spend := 4000 } 10000 3000 (some 100000) 50
    (by decide) (by decide)
  exact ⟨by decide, h.1.mp (by decide)⟩


/-- C5: `vote_proposal_handler` fails `NotAdmin` for non-admins,
`ProposalNotPending` off `Pending`, lazily expires past-expiry
proposals (`ProposalExpired`, no tally); otherwise it tallies the vote
and settles in order: `Approved` when `votes_for ≥ threshold`, else
`Rejected` when `votes_against > admin_count - threshold`, else stays
`Pending`.  Hypotheses: the governance invariant
`threshold ≤ admin_count` (established by initialize_governance, under
which `Nat` subtraction matches the `u8` subtraction) and `u8` tallies
below 255 (so the `checked_add` cannot abort). -/
theorem vote_proposal_spec (registry : AdminRegistry) (p : TreasuryProposal)
    (voter : Pubkey) (approve : Bool) (now : Int)
    (hta : registry.threshold ≤ registry.admin_count)
    (hvf : p.votes_for < 255) (hva : p.votes_against < 255) :
    (isAdmin registry voter = false →
      vote_proposal_handler registry p voter approve now = (.error .NotAdmin, p))
    ∧ (isAdmin registry voter = true → p.status ≠ .Pending →
      vote_proposal_handler registry p voter approve now =
        (.error .ProposalNotPending, p))
    ∧ (isAdmin registry voter = true → p.status = .Pending → now > p.expires_at →
      vote_proposal_handler registry p voter approve now =
        (.error .ProposalExpired, { p with status := .Expired }))
    ∧ (isAdmin registry voter = true → p.status = .Pending → ¬now > p.expires_at →
        approve = true →
      vote_proposal_handler registry p voter approve now =
        (.ok (), { p with
          votes_for := p.votes_for + 1
          status :=
            if p.votes_for + 1 ≥ registry.threshold then .Approved
            else if p.votes_against >
                registry.admin_count - registry.threshold then .Rejected
            else .Pending }))
    ∧ (isAdmin registry voter = true → p.status = .Pending → ¬now > p.expires_at →
        approve = false →
      vote_proposal_handler registry p voter approve now =
        (.ok (), { p with
          votes_against := p.votes_against + 1
          status :=
            if p.votes_for ≥ registry.threshold then .Approved
            else if p.votes_against + 1 >
                registry.admin_count - registry.threshold then .Rejected
            else .Pending })) := by
  obtain ⟨pid, ppr, pds, pam, pme, pst, pvf, pva, pca, pea, pex⟩ := p
  simp only at hvf hva
  refine ⟨?_, ?_, ?_, ?_, ?_⟩
  · intro hna
    simp [vote_proposal_handler, hna]
  · intro ha hns
    simp only at hns
    simp [vote_proposal_handler, ha, hns]
  · intro ha hs hexp
    simp only at hs
    subst hs
    simp [vote_proposal_handler, ha, hexp]
  · intro ha hs hexp happ
    simp only at hs
    subst hs
    subst happ
    simp only [vote_proposal_handler, ha, hexp]
    split_ifs <;> simp_all <;> omega
  · intro ha hs hexp happ
    simp only at hs
    subst hs
    subst happ
    simp only [vote_proposal_handler, ha, hexp]
    split_ifs <;> simp_all <;> omega

/-- Witness for C5: admin `[2]` approving the fresh proposal reaches the
threshold and settles it `Approved`. -/
theorem vote_proposal_spec_witness :
    vote_proposal_handler reg3 pFresh [2] true 50 =
      (.ok (), { pFresh with votes_for := 2, status := .Approved }) := by
  have h := (vote_proposal_spec reg3 pFresh [2] true 50 (by decide) (by decide)
    (by decide)).2.2.2.1 (by decide) (by decide) (by decide) rfl
  rw [h]
  decide


/-- The shape of the proposal after `j` repeated approving votes by one
admin, while `j` stays within the threshold (threshold at least 2):
only `votes_for` and (at the end) `status` move; no per-voter record
exists to stop the repetition. -/
theorem iterateVotes_shape (registry : AdminRegistry) (p0 : TreasuryProposal)
    (voter : Pubkey) (now : Int)
    (hadm : isAdmin registry voter = true)
    (hst : p0.status = .Pending) (hvf : p0.votes_for = 1)
    (hva : p0.votes_against = 0) (hexp : ¬now > p0.expires_at)
    (hth2 : 2 ≤ registry.threshold) (hth5 : registry.threshold ≤ 5) :
    ∀ j, 1 + j ≤ registry.threshold →
      iterateVotes registry p0 voter now j =
        { p0 with
            votes_for := 1 + j
            status := if registry.threshold ≤ 1 + j then .Approved else .Pending } := by
  obtain ⟨pid, ppr, pds, pam, pme, pst, pvf, pva, pca, pea, pex⟩ := p0
  simp only at hst hvf hva hexp
  subst hst
  subst hvf
  subst hva
  intro j
  induction j with
  | zero =>
    intro hj
    rw [if_neg (by omega)]
    rfl
  | succ k ih =>
    intro hj
    have hk : 1 + k ≤ registry.threshold := by omega
    have hklt : ¬registry.threshold ≤ 1 + k := by omega
    rw [iterateVotes, ih hk, if_neg hklt]
    clear ih
    simp only [vote_proposal_handler, hadm, hexp]
    split_ifs with h1 h2 h3 <;> simp_all <;> omega

/-- C6: the proposal stores no per-voter state, so one registered admin
alone can vote repeatedly: each approving call while the proposal is
`Pending` and unexpired adds 1 to `votes_for`, and after enough repeat
votes by that single admin the proposal reaches `Approved` (from the
auto-vote of 1 up to the threshold; for threshold 1 a single vote is
enough).  Threshold bounds are the initialize_governance invariant
`1 ≤ threshold ≤ admin_count ≤ 5`. -/
theorem single_admin_can_approve (registry : AdminRegistry)
    (p0 : TreasuryProposal) (voter : Pubkey) (now : Int)
    (hadm : isAdmin registry voter = true)
    (hst : p0.status = .Pending) (hvf : p0.votes_for = 1)
    (hva : p0.votes_against = 0) (hexp : ¬now > p0.expires_at)
    (hth1 : 1 ≤ registry.threshold) (hth5 : registry.threshold ≤ 5) :
    (∀ j, 1 + j < registry.threshold →
      (iterateVotes registry p0 voter now j).status = .Pending
      ∧ (iterateVotes registry p0 voter now j).votes_for = 1 + j
      ∧ (vote_proposal_handler registry (iterateVotes registry p0 voter now j)
          voter true now).2.votes_for = 1 + j + 1)
    ∧ (2 ≤ registry.threshold →
      (iterateVotes registry p0 voter now (registry.threshold - 1)).status = .Approved
      ∧ (iterateVotes registry p0 voter now
          (registry.threshold - 1)).votes_for = registry.threshold)
    ∧ (registry.threshold = 1 →
      (iterateVotes registry p0 voter now 1).status = .Approved) := by
  refine ⟨?_, ?_, ?_⟩
  · intro j hj
    have hth2 : 2 ≤ registry.threshold := by omega
    have hs := iterateVotes_shape registry p0 voter now hadm hst hvf hva hexp
      hth2 hth5 j (by omega)
    rw [hs, if_neg (by omega)]
    obtain ⟨pid, ppr, pds, pam, pme, pst, pvf, pva, pca, pea, pex⟩ := p0
    simp only at hst hvf hva hexp
    subst hst
    subst hvf
    subst hva
    refine ⟨rfl, rfl, ?_⟩
    simp only [vote_proposal_handler, hadm, hexp]
    split_ifs <;> simp_all <;> omega
  · intro hth2
    have hs := iterateVotes_shape registry p0 voter now hadm hst hvf hva hexp
      hth2 hth5 (registry.threshold - 1) (by omega)
    rw [hs, if_pos (by omega)]
    exact ⟨rfl, by simp; omega⟩
  · intro hth
    have hs : iterateVotes registry p0 voter now 1 =
        (vote_proposal_handler registry p0 voter true now).2 := by
      rw [iterateVotes, iterateVotes]
    rw [hs]
    obtain ⟨pid, ppr, pds, pam, pme, pst, pvf, pva, pca, pea, pex⟩ := p0
    simp only at hst hvf hva hexp
    subst hst
    subst hvf
    subst hva
    simp only [vote_proposal_handler, hadm, hexp, hth]
    split_ifs <;> simp_all

/-- Witness for C6: in the 3-admin threshold-2 registry, the proposer's
single co-admin repeat-votes once and the proposal is `Approved` with
no third admin involved. -/
theorem single_admin_can_approve_witness :
    (iterateVotes reg3 pFresh [2] 50 (reg3.threshold - 1)).status = .Approved
    ∧ (iterateVotes reg3 pFresh [2] 50 (reg3.threshold - 1)).votes_for =
        reg3.threshold :=
  (single_admin_can_approve reg3 pFresh [2] 50 (by decide) (by decide)
    (by decide) (by decide) (by decide) (by decide) (by decide)).2.1 (by decide)


set_option maxHeartbeats 1600000 in
/-- One `vote_proposal_handler` call only moves the status along allowed
edges, preserves "Approved implies threshold reached", and is a no-op
rejection on an `Executed` proposal. -/
theorem vote_step_facts (reg : AdminRegistry) (p : TreasuryProposal)
    (voter : Pubkey) (approve : Bool) (now : Int) :
    allowedTransition p.status
      (vote_proposal_handler reg p voter approve now).2.status
    ∧ ((p.status = .Approved → reg.threshold ≤ p.votes_for) →
        (vote_proposal_handler reg p voter approve now).2.status = .Approved →
        reg.threshold ≤ (vote_proposal_handler reg p voter approve now).2.votes_for)
    ∧ (p.status = .Executed →
        (vote_proposal_handler reg p voter approve now).2 = p
        ∧ (vote_proposal_handler reg p voter approve now).1 ≠ .ok ()) := by
  obtain ⟨pid, ppr, pds, pam, pme, pst, pvf, pva, pca, pea, pex⟩ := p
  simp only [vote_proposal_handler]
  cases pst <;> split_ifs <;> simp_all [allowedTransition]

set_option maxHeartbeats 1600000 in
/-- One `execute_proposal_handler` call only moves the status along
allowed edges, never changes the tally, succeeds only from `Approved`
(producing `Executed`), and is a no-op rejection on an `Executed`
proposal. -/
theorem exec_step_facts (cfg : BankConfig) (p : TreasuryProposal)
    (d : Pubkey) (tr : Nat) (now : Int) :
    allowedTransition p.status
      (execute_proposal_handler cfg p d tr now).proposal.status
    ∧ (execute_proposal_handler cfg p d tr now).proposal.votes_for = p.votes_for
    ∧ ((execute_proposal_handler cfg p d tr now).proposal.status = .Approved →
        p.status = .Approved)
    ∧ ((execute_proposal_handler cfg p d tr now).res = .ok () →
        p.status = .Approved
        ∧ (execute_proposal_handler cfg p d tr now).proposal.status = .Executed)
    ∧ (p.status = .Executed →
        (execute_proposal_handler cfg p d tr now).proposal = p
        ∧ (execute_proposal_handler cfg p d tr now).res ≠ .ok ()) := by
  obtain ⟨pid, ppr, pds, pam, pme, pst, pvf, pva, pca, pea, pex⟩ := p
  simp only [execute_proposal_handler]
  cases pst <;> split_ifs <;> simp_all [allowedTransition]

/-- The per-call facts lifted to `applyGovOp`. -/
theorem applyGovOp_facts (cfg : BankConfig) (reg : AdminRegistry)
    (p : TreasuryProposal) (op : GovOp) :
    allowedTransition p.status (applyGovOp cfg reg p op).2.status
    ∧ ((p.status = .Approved → reg.threshold ≤ p.votes_for) →
        (applyGovOp cfg reg p op).2.status = .Approved →
        reg.threshold ≤ (applyGovOp cfg reg p op).2.votes_for)
    ∧ (p.status = .Executed →
        (applyGovOp cfg reg p op).2 = p
        ∧ (applyGovOp cfg reg p op).1 ≠ .ok ()) := by
  cases op with
  | vote v a n => exact vote_step_facts reg p v a n
  | execute d tr n =>
    obtain ⟨h1, h2, h3, h4, h5⟩ := exec_step_facts cfg p d tr n
    refine ⟨h1, ?_, ?_⟩
    · intro hinv happ
      rw [show (applyGovOp cfg reg p (.execute d tr n)).2 =
          (execute_proposal_handler cfg p d tr n).proposal from rfl] at happ ⊢
      rw [h2]
      exact hinv (h3 happ)
    · intro hex
      exact ⟨(h5 hex).1, (h5 hex).2⟩

/-- Every governance run only walks allowed status edges. -/
theorem stepsAllowed_always (cfg : BankConfig) (reg : AdminRegistry) :
    ∀ (ops : List GovOp) (p : TreasuryProposal), stepsAllowed cfg reg p ops := by
  intro ops
  induction ops with
  | nil => intro p; exact trivial
  | cons op rest ih => intro p; exact ⟨(applyGovOp_facts cfg reg p op).1, ih _⟩

/-- The invariant that Approved implies threshold reached is preserved
by every run. -/
theorem approvedInv_runGov (cfg : BankConfig) (reg : AdminRegistry) :
    ∀ (ops : List GovOp) (p : TreasuryProposal),
    (p.status = .Approved → reg.threshold ≤ p.votes_for) →
    ((runGov cfg reg p ops).status = .Approved →
      reg.threshold ≤ (runGov cfg reg p ops).votes_for) := by
  intro ops
  induction ops with
  | nil => intro p h; exact h
  | cons op rest ih =>
    intro p h
    exact ih _ ((applyGovOp_facts cfg reg p op).2.1 h)

/-- Once a proposal is `Executed`, no later call executes again. -/
theorem execCount_zero_executed (cfg : BankConfig) (reg : AdminRegistry) :
    ∀ (ops : List GovOp) (p : TreasuryProposal), p.status = .Executed →
    execCount cfg reg p ops = 0 := by
  intro ops
  induction ops with
  | nil => intro p h; rfl
  | cons op rest ih =>
    intro p h
    obtain ⟨hunch, hne⟩ := (applyGovOp_facts cfg reg p op).2.2 h
    simp only [execCount]
    rw [hunch, ih p h]
    cases op with
    | vote v a n => simp
    | execute d tr n =>
      cases hres : (applyGovOp cfg reg p (.execute d tr n)).1 with
      | ok u => exact absurd (by cases u; exact hres) hne
      | error e => simp [hres]

/-- At most one `execute` call of a run succeeds. -/
theorem execCount_le_one (cfg : BankConfig) (reg : AdminRegistry) :
    ∀ (ops : List GovOp) (p : TreasuryProposal),
    execCount cfg reg p ops ≤ 1 := by
  intro ops
  induction ops with
  | nil => intro p; simp [execCount]
  | cons op rest ih =>
    intro p
    simp only [execCount]
    cases op with
    | vote v a n => simpa using ih _
    | execute d tr n =>
      cases hres : (applyGovOp cfg reg p (.execute d tr n)).1 with
      | ok u =>
        cases u
        have hex : (applyGovOp cfg reg p (.execute d tr n)).2.status = .Executed := by
          have h4 := (exec_step_facts cfg p d tr n).2.2.2.1
          exact (h4 hres).2
        rw [execCount_zero_executed cfg reg rest _ hex]
      | error e => simpa using ih _

/-- C4: starting from any created proposal, over every sequence of vote
and execute calls the status only moves along
`Pending -> {Approved, Rejected, Expired}` and `Approved -> Executed`
(or stays put), a state with status `Approved` always has
`votes_for ≥ threshold`, at most one execute call ever succeeds, and an
execute call succeeds only from `Approved`. -/
theorem proposal_lifecycle (cfg : BankConfig) (reg0 reg1 : AdminRegistry)
    (proposer dest : Pubkey) (amount : Nat) (memo : String) (treasury : Nat)
    (cnow : Int) (p0 : TreasuryProposal) (ops : List GovOp)
    (hc : create_proposal_handler reg0 proposer dest amount memo treasury cnow =
      .ok (reg1, p0)) :
    stepsAllowed cfg reg1 p0 ops
    ∧ ((runGov cfg reg1 p0 ops).status = .Approved →
        reg1.threshold ≤ (runGov cfg reg1 p0 ops).votes_for)
    ∧ execCount cfg reg1 p0 ops ≤ 1
    ∧ (∀ p2 d tr n2, (execute_proposal_handler cfg p2 d tr n2).res = .ok () →
        p2.status = .Approved
        ∧ (execute_proposal_handler cfg p2 d tr n2).proposal.status = .Executed) := by
  have hpend : p0.status = .Pending := by
    unfold create_proposal_handler at hc
    split_ifs at hc
    have h := Except.ok.inj hc
    injection h with h1 h2
    rw [← h2]
  refine ⟨stepsAllowed_always cfg reg1 ops p0, ?_,
    execCount_le_one cfg reg1 ops p0,
    fun p2 d tr n2 hok => (exec_step_facts cfg p2 d tr n2).2.2.2.1 hok⟩
  refine approvedInv_runGov cfg reg1 ops p0 ?_
  intro h
  rw [hpend] at h
  exact ProposalStatus.noConfusion h

/-- Witness for C4: a concrete created proposal, one approving co-vote
and one execution; all four lifecycle properties hold on that run. -/
theorem proposal_lifecycle_witness :
    create_proposal_handler reg30 [1] [4, 5] 1000 "" 2000 0 = .ok (reg3, pFresh)
    ∧ (stepsAllowed cfgW reg3 pFresh opsW
      ∧ ((runGov cfgW reg3 pFresh opsW).status = .Approved →
          reg3.threshold ≤ (runGov cfgW reg3 pFresh opsW).votes_for)
      ∧ execCount cfgW reg3 pFresh opsW ≤ 1
      ∧ (∀ p2 d tr n2, (execute_proposal_handler cfgW p2 d tr n2).res = .ok () →
          p2.status = .Approved
          ∧ (execute_proposal_handler cfgW p2 d tr n2).proposal.status = .Executed)) :=
  ⟨by decide,
   proposal_lifecycle cfgW reg30 reg3 [1] [4, 5] 1000 "" 2000 0 pFresh opsW
     (by decide)⟩

/-- C10: the yield hook trigger (permissionless: the handler never reads
a caller identity) fails `HookDisabled` when disabled; with each
condition variant it fails `HookConditionNotMet` exactly when the
condition is unmet (`BalanceAbove`: `staked_amount ≥ threshold`;
`TimeElapsed`: `now - last_triggered ≥ interval`; `YieldAbove`:
`floor(staked_amount * 5 * (now - last_yield_timestamp) / 3153600000) ≥
threshold`); on success it reports
`deploy_amount = floor(staked_amount * deploy_percentage / 100)`, sets
`last_triggered := now` and increments `trigger_count` by 1.  The
side hypotheses are the `u64`/`i64` well-formedness bounds under which
the wide-arithmetic casts are the identity. -/
theorem trigger_yield_hook_spec (strategy : YieldStrategy) (agent : Agent)
    (now : Int)
    (hpct : strategy.deploy_percentage ≤ 100)
    (hstk : agent.staked_amount < U64)
    (hcnt : strategy.trigger_count + 1 < U64)
    (hel : agent.last_yield_timestamp ≤ now)
    (hspan : now - agent.last_yield_timestamp < (2 : Int) ^ 63)
    (hprod : agent.staked_amount * 5 * (now - agent.last_yield_timestamp).toNat
        < 2 ^ 128)
    (hyld : agent.staked_amount * 5 * (now - agent.last_yield_timestamp).toNat
        / 3153600000 < U64) :
    (strategy.enabled = false →
      trigger_yield_hook_handler strategy agent now =
        ⟨.error .HookDisabled, strategy, 0⟩)
    ∧ (∀ threshold, strategy.condition = .BalanceAbove threshold →
        strategy.enabled = true →
        (agent.staked_amount < threshold →
          trigger_yield_hook_handler strategy agent now =
            ⟨.error .HookConditionNotMet, strategy, 0⟩)
        ∧ (threshold ≤ agent.staked_amount →
          trigger_yield_hook_handler strategy agent now =
            ⟨.ok (),
             { strategy with
                 last_triggered := now
                 trigger_count := strategy.trigger_count + 1 },
             agent.staked_amount * strategy.deploy_percentage / 100⟩))
    ∧ (∀ interval, strategy.condition = .TimeElapsed interval →
        strategy.enabled = true →
        (now - strategy.last_triggered < interval →
          trigger_yield_hook_handler strategy agent now =
            ⟨.error .HookConditionNotMet, strategy, 0⟩)
        ∧ (interval ≤ now - strategy.last_triggered →
          trigger_yield_hook_handler strategy agent now =
            ⟨.ok (),
             { strategy with
                 last_triggered := now
                 trigger_count := strategy.trigger_count + 1 },
             agent.staked_amount * strategy.deploy_percentage / 100⟩))
    ∧ (∀ threshold, strategy.condition = .YieldAbove threshold →
        strategy.enabled = true →
        (agent.staked_amount * 5 * (now - agent.last_yield_timestamp).toNat
            / 3153600000 < threshold →
          trigger_yield_hook_handler strategy agent now =
            ⟨.error .HookConditionNotMet, strategy, 0⟩)
        ∧ (threshold ≤ agent.staked_amount * 5 *
              (now - agent.last_yield_timestamp).toNat / 3153600000 →
          trigger_yield_hook_handler strategy agent now =
            ⟨.ok (),
             { strategy with
                 last_triggered := now
                 trigger_count := strategy.trigger_count + 1 },
             agent.staked_amount * strategy.deploy_percentage / 100⟩)) := by
  have hdle : agent.staked_amount * strategy.deploy_percentage / 100 ≤
      agent.staked_amount := by
    calc agent.staked_amount * strategy.deploy_percentage / 100
        ≤ agent.staked_amount * 100 / 100 :=
          Nat.div_le_div_right (Nat.mul_le_mul_left _ hpct)
      _ = agent.staked_amount := Nat.mul_div_cancel agent.staked_amount (by omega)
  have hdep : agent.staked_amount * strategy.deploy_percentage / 100 % U64 =
      agent.staked_amount * strategy.deploy_percentage / 100 :=
    Nat.mod_eq_of_lt (lt_of_le_of_lt hdle hstk)
  have hx : i64AsU128 (now - agent.last_yield_timestamp) =
      (now - agent.last_yield_timestamp).toNat := by
    unfold i64AsU128
    rw [Int.emod_eq_of_lt (by omega) (by
      have h63 : (2 : Int) ^ 63 < (2 : Int) ^ 128 := by norm_num
      omega)]
  refine ⟨?_, ?_, ?_, ?_⟩
  · intro hen
    simp [trigger_yield_hook_handler, hen]
  · intro threshold hc hen
    constructor
    · intro hlt
      simp only [trigger_yield_hook_handler, evalHookCondition, hc, hen,
        Bool.not_true, Bool.false_eq_true, if_false]
      rw [decide_eq_false (by omega)]
    · intro hge
      simp only [trigger_yield_hook_handler, evalHookCondition, hc, hen,
        Bool.not_true, Bool.false_eq_true, if_false]
      rw [decide_eq_true (by omega), if_neg (by omega), hdep]
  · intro interval hc hen
    constructor
    · intro hlt
      simp only [trigger_yield_hook_handler, evalHookCondition, hc, hen,
        Bool.not_true, Bool.false_eq_true, if_false]
      rw [decide_eq_false (by omega)]
    · intro hge
      simp only [trigger_yield_hook_handler, evalHookCondition, hc, hen,
        Bool.not_true, Bool.false_eq_true, if_false]
      rw [decide_eq_true (by omega), if_neg (by omega), hdep]
  · intro threshold hc hen
    constructor
    · intro hlt
      simp only [trigger_yield_hook_handler, evalHookCondition, hc, hen, hx,
        Bool.not_true, Bool.false_eq_true, if_false]
      rw [if_neg (by omega),
        decide_eq_false (by rw [Nat.mod_eq_of_lt hyld]; omega)]
    · intro hge
      simp only [trigger_yield_hook_handler, evalHookCondition, hc, hen, hx,
        Bool.not_true, Bool.false_eq_true, if_false]
      rw [if_neg (by omega),
        decide_eq_true (by rw [Nat.mod_eq_of_lt hyld]; omega),
        if_neg (by omega), hdep]

/-- Witness for C10: two accrued years on 1 SOL staked meet the 0.1-SOL
yield threshold; the trigger succeeds, deploys 50% and bumps the
counter from 3 to 4. -/
theorem trigger_yield_hook_spec_witness :
    stratYield.enabled = true
    ∧ stratYield.condition = .YieldAbove 100000000
    ∧ trigger_yield_hook_handler stratYield agStaked 63072000 =
        ⟨.ok (),
         { stratYield with last_triggered := 63072000, trigger_count := 4 },
         500000000⟩ := by
  have h := (trigger_yield_hook_spec stratYield agStaked 63072000 (by decide)
    (by decide) (by decide) (by decide) (by decide) (by decide)
    (by decide)).2.2.2 100000000 rfl rfl
  refine ⟨rfl, rfl, ?_⟩
  rw [h.2 (by decide)]
  decide

end NeoBank
